import Mathlib

/-!
A shallow embedding of the federate coordination core
(`lib/core/federate.c`) and the Arduino platform clock
(`core/platform/lf_arduino_support.c`), with theorems settling the
specification's claims about them.

Machine integers are modelled as `Nat`/`Int` with explicit reductions
modulo `2^w` where the C code can overflow.  Socket I/O and the
condition-variable wait are modelled by explicit environments: a list of
read results for a reader loop, and a list of wake-up observations for
the coordinator's wait loop (each observation is the mutex-protected
state the woken thread sees).
-/

namespace Federate

/-! Section: Wire constants

Modelled from the spec: the message-type byte values live in `rti.h`,
which is not part of the sources here; the spec (§4.3) fixes the set of
message types and states the byte values are implementation choices.
We fix arbitrary distinct byte values. -/

/-- Modelled from the spec: message-type byte for `FED_ID` (`rti.h`). -/
def FED_ID : Nat := 1

/-- Modelled from the spec: message-type byte for `TIMESTAMP` (`rti.h`). -/
def TIMESTAMP : Nat := 2

/-- Modelled from the spec: message-type byte for `TIMED_MESSAGE` (`rti.h`). -/
def TIMED_MESSAGE : Nat := 5

/-- Modelled from the spec: message-type byte for `NEXT_EVENT_TIME` (`rti.h`). -/
def NEXT_EVENT_TIME : Nat := 6

/-- Modelled from the spec: message-type byte for `TIME_ADVANCE_GRANT` (`rti.h`). -/
def TIME_ADVANCE_GRANT : Nat := 7

/-- Modelled from the spec: message-type byte for `LOGICAL_TIME_COMPLETE` (`rti.h`). -/
def LOGICAL_TIME_COMPLETE : Nat := 8

/-- Modelled from the spec: message-type byte for `STOP` (`rti.h`). -/
def STOP : Nat := 9

/-- Modelled from the spec: message-type byte for `ADDRESS_QUERY` (`rti.h`). -/
def ADDRESS_QUERY : Nat := 10

/-- Modelled from the spec: message-type byte for `ADDRESS_AD` (`rti.h`). -/
def ADDRESS_AD : Nat := 11

/-- Modelled from the spec: message-type byte for `P2P_SENDING_FED_ID` (`rti.h`). -/
def P2P_SENDING_FED_ID : Nat := 12

/-- Modelled from the spec: message-type byte for `P2P_TIMED_MESSAGE` (`rti.h`). -/
def P2P_TIMED_MESSAGE : Nat := 13

/-- Modelled from the spec: message-type byte for `ACK` (`rti.h`). -/
def ACK : Nat := 255

/-- Modelled from the spec: message-type byte for `REJECT` (`rti.h`). -/
def REJECT : Nat := 254

/-- Modelled from the spec: `REJECT` cause byte `FEDERATION_ID_DOES_NOT_MATCH` (`rti.h`). -/
def FEDERATION_ID_DOES_NOT_MATCH : Nat := 1

/-- Modelled from the spec: `REJECT` cause byte `WRONG_SERVER` (`rti.h`). -/
def WRONG_SERVER : Nat := 2

/-- Modelled from the spec: the sentinel `NEVER` (`reactor.h`) is an `i64`
that compares less than any valid time; in the C sources it is the
minimum `long long`. -/
def NEVER : Int := -(2 ^ 63)

/-! Section: Wire codec

Modelled from the spec (§4.2, §6) and `util.c`, which is not among the
sources here: all multi-byte wire integers are little-endian;
`encode_ushort`/`encode_int`/`encode_ll` write 2/4/8 little-endian
bytes, `extract_ushort`/`extract_int`/`extract_ll` read them back.
An `i64` is represented in two's complement. -/

/-- Little-endian byte list of `v` (already reduced mod `2^(8*n)`), `n` bytes. -/
def leBytes (n : Nat) (v : Nat) : List Nat :=
  (List.range n).map fun i => v / 2 ^ (8 * i) % 256

/-- Modelled from the spec: `encode_ushort` (`util.c`), 2 little-endian bytes. -/
def encode_ushort (v : Nat) : List Nat := leBytes 2 (v % 2 ^ 16)

/-- Modelled from the spec: `encode_int` (`util.c`), 4 little-endian bytes. -/
def encode_int (v : Nat) : List Nat := leBytes 4 (v % 2 ^ 32)

/-- Modelled from the spec: `encode_ll` (`util.c`), 8 little-endian bytes of
the two's-complement representation of an `i64`. -/
def encode_ll (v : Int) : List Nat := leBytes 8 (v % 2 ^ 64).toNat

/-- Value of the first `n` bytes of `b`, read little-endian (missing bytes read as 0). -/
def leValue (n : Nat) (b : List Nat) : Nat :=
  (List.range n).foldr (fun i acc => acc + b.getD i 0 % 256 * 2 ^ (8 * i)) 0

/-- Modelled from the spec: `extract_ushort` (`util.c`), 2 little-endian bytes. -/
def extract_ushort (b : List Nat) : Nat := leValue 2 b

/-- Modelled from the spec: `extract_int` (`util.c`), 4 little-endian bytes. -/
def extract_int (b : List Nat) : Nat := leValue 4 b

/-- Modelled from the spec: `extract_ll` (`util.c`), 8 little-endian bytes,
two's complement `i64`. -/
def extract_ll (b : List Nat) : Int :=
  let n := leValue 8 b
  if n < 2 ^ 63 then (n : Int) else (n : Int) - 2 ^ 64

/-! Section: `send_time` (federate.c:296) -/

/-- The 9-byte frame written by `send_time(type, time)` (federate.c:296):
one type byte followed by the 8-byte little-endian timestamp. -/
def send_time (type : Nat) (time : Int) : List Nat :=
  type :: encode_ll time

/-! Section: Coordinator state and `__next_event_time` (federate.c:1029) -/

/-- The coordinator state shared between the main thread and the RTI
reader thread (federate.c:804-814, 995-1003): `__tag`, `__tag_pending`,
`__fed_has_upstream`, `__fed_has_downstream`. -/
structure FedState where
  tag : Int
  tagPending : Bool
  hasUpstream : Bool
  hasDownstream : Bool
deriving DecidableEq, Repr

/-- Initial value of `__tag` (federate.c:809): the sentinel `NEVER`. -/
def tagInit : Int := NEVER

/-- Initial value of `__tag_pending` (federate.c:814). -/
def tagPendingInit : Bool := false

/-- Handler `handle_time_advance_grant` (federate.c:821), restricted to its
effect on the coordinator state: it reads an `i64` grant `g` from the RTI
socket and, under the mutex, sets `__tag = g` and `__tag_pending = false`
(then broadcasts `event_q_changed`). -/
def handle_time_advance_grant (s : FedState) (g : Int) : FedState :=
  { s with tag := g, tagPending := false }

/-- One wake-up of the waiter in `__next_event_time`'s
`pthread_cond_wait` loop (federate.c:1075-1098): the mutex-protected
state observed right after the wait returns — the current values of
`__tag_pending` and `__tag`, and the head-of-event-queue time
(`pqueue_peek(event_q)`), `none` when the queue is empty. -/
structure Wake where
  tagPending : Bool
  tag : Int
  head : Option Int
deriving DecidableEq, Repr

/-- The `while (__tag_pending)` wait loop of `__next_event_time`
(federate.c:1075-1099), driven by the list of wake-ups the environment
delivers.  Returns `some (r, p)` when the loop returns value `r` with
`__tag_pending = p` at the return, and `none` when the wake-ups are
exhausted with the waiter still blocked.  On a wake with
`__tag_pending` still true, the head event is peeked and its time
returned if it is earlier than the requested time; otherwise the wait
continues.  Once a wake shows `__tag_pending` false, the loop exits and
`__tag` is returned. -/
def netWaitLoop (time : Int) : List Wake → Option (Int × Bool)
  | [] => none
  | w :: ws =>
    if w.tagPending then
      match w.head with
      | some h => if h < time then some (h, true) else netWaitLoop time ws
      | none => netWaitLoop time ws
    else
      some (w.tag, false)

/-- Outcome of a call to `__next_event_time`: the frames written to the
RTI socket during the call, and `some (r, p)` when the call returns
value `r` with `__tag_pending = p` at the return — `none` when the call
is still blocked after all supplied wake-ups. -/
structure NetCall where
  sent : List (List Nat)
  result : Option (Int × Bool)
deriving DecidableEq, Repr

/-- Function `__next_event_time(time)` (federate.c:1029-1100), called with
the mutex held on coordinator state `s`, with `wakes` the environment's
condition-variable wake-ups.
  1. If the federate has neither downstream nor upstream federates,
     return `time` (federate.c:1030-1041).
  2. If `__tag >= time`, return `time` (federate.c:1057-1059).
  3. Send `NEXT_EVENT_TIME(time)` to the RTI (federate.c:1061).
  4. If there are no upstream federates, return `time` (federate.c:1070-1072).
  5. Set `__tag_pending = true` and run the wait loop (federate.c:1074-1099). -/
def __next_event_time (s : FedState) (time : Int) (wakes : List Wake) :
    NetCall :=
  if !s.hasDownstream && !s.hasUpstream then
    ⟨[], some (time, s.tagPending)⟩
  else if s.tag ≥ time then
    ⟨[], some (time, s.tagPending)⟩
  else
    let frame := send_time NEXT_EVENT_TIME time
    if !s.hasUpstream then
      ⟨[frame], some (time, s.tagPending)⟩
    else
      ⟨[frame], netWaitLoop time wakes⟩

/-! Section: `__logical_time_complete` (federate.c:1009) -/

/-- Function `__logical_time_complete(time)` (federate.c:1009-1014): the
frames it writes to the RTI socket — an `LTC` frame when the federate
has downstream federates, nothing otherwise. -/
def __logical_time_complete (hasDownstream : Bool) (time : Int) : List (List Nat) :=
  if hasDownstream then [send_time LOGICAL_TIME_COMPLETE time] else []

/-! Section: C string helpers

Modelled from the spec and the C standard library: `strnlen` and
`strncmp` as used by `federate.c` on federation identifiers.  A C string
is modelled as its list of bytes; a byte beyond the end of the list
reads as 0 (the NUL terminator of `federation_id`; for the remote
identifier buffer the code only reads in bounds in the scenarios the
theorems use). -/

/-- Modelled from the spec: C `strnlen(s, maxlen)` over a byte list with an
implicit NUL terminator at the end of the list. -/
def strnlen (s : List Nat) (maxlen : Nat) : Nat :=
  match s, maxlen with
  | [], _ => 0
  | _, 0 => 0
  | c :: rest, m + 1 => if c = 0 then 0 else 1 + strnlen rest m

/-- Modelled from the spec: C `strncmp(a, b, n)` over byte lists with implicit
NUL terminators, returning the sign of the first differing byte pair. -/
def strncmp (a b : List Nat) : Nat → Int
  | 0 => 0
  | n + 1 =>
    let ca := a.headD 0
    let cb := b.headD 0
    if ca ≠ cb then (ca : Int) - (cb : Int)
    else if ca = 0 then 0
    else strncmp a.tail b.tail n

/-! Section: `handle_timed_message` (federate.c:765) -/

/-- What `handle_timed_message` schedules: the wire port id the action is
looked up for, the delay passed to `schedule_value_already_locked`, and
the declared payload length. -/
structure ScheduledMsg where
  portId : Nat
  delay : Int
  length : Nat
deriving DecidableEq, Repr

/-- Function `handle_timed_message(socket, buffer)` (federate.c:765-802)
after the 16-byte header has been read into `buffer`: extract the port id, the
destination federate id and the payload length (`extract_header`,
bytes 0-1, 2-3 and 4-7, little-endian) and the timestamp
(`extract_ll(buffer + 8)`, bytes 8-15); `assert(_lf_my_fed_id ==
federate_id)` — modelled as returning `none` (the fault) when the check
fails; otherwise, with the mutex held, compute
`delay = timestamp - get_logical_time()` and schedule the payload on
the action for the port with exactly that delay. -/
def handle_timed_message (myFedId : Nat) (logicalTime : Int)
    (buffer : List Nat) : Option ScheduledMsg :=
  let portId := extract_ushort buffer
  let federateId := extract_ushort (buffer.drop 2)
  let length := extract_int (buffer.drop 4)
  let timestamp := extract_ll (buffer.drop 8)
  if myFedId = federateId then
    some ⟨portId, timestamp - logicalTime, length⟩
  else
    none

/-! Section: `listen_to_federates` (federate.c:877) -/

/-- Result of the one-byte `read_from_socket2` at the top of the
`listen_to_federates` loop: 0 bytes (EOF), a negative count
(transport error), or one message-type byte.  `byte b` stands for a
whole message whose type byte is `b`; handling of a recognized message's
body is process-fatal on I/O failure (`read_from_socket`), not
thread-terminating, so it is abstracted into the same list element. -/
inductive ReadRes where
  | eof
  | err
  | byte (b : Nat)
deriving DecidableEq, Repr

/-- The `while (1)` loop of `listen_to_federates` (federate.c:891-919) for
one peer, driven by the list of socket read results.  State: `closed`
records whether the thread has already called `close(socket_id)`
(a read on a closed descriptor fails, so the next iteration takes the
transport-error path), `slot` is
`_lf_federate_sockets_for_inbound_physical_connections[fed_id]`.
Returns `some (closed, slot)` — the final state when the thread exits
the loop — or `none` when the reads are exhausted with the thread still
blocked reading.
  * EOF: close the socket, set the slot to -1, break (federate.c:896-901).
  * negative read: close, slot to -1, break (federate.c:902-907).
  * `P2P_TIMED_MESSAGE`: handle it and loop (federate.c:909-912).
  * any other type byte: close, slot to -1, `break` — which in the C
    only exits the `switch`, so the loop runs once more and exits
    through the transport-error path (federate.c:913-917). -/
def listenLoop : List ReadRes → Bool → Int → Option (Bool × Int)
  | _, true, _ => some (true, -1)
  | [], false, _ => none
  | .eof :: _, false, _ => some (true, -1)
  | .err :: _, false, _ => some (true, -1)
  | .byte b :: rest, false, slot =>
    if b = P2P_TIMED_MESSAGE then listenLoop rest false slot
    else listenLoop rest true (-1)

/-- Thread body `listen_to_federates` (federate.c:877-922) for a peer whose inbound
slot holds socket descriptor `sock`: run the read loop starting with
the socket open. -/
def listen_to_federates (reads : List ReadRes) (sock : Int) :
    Option (Bool × Int) :=
  listenLoop reads false sock

/-- A read result terminates the reader loop: EOF, a transport error, or
an unrecognized message-type byte. -/
def terminatingRead (r : ReadRes) : Bool :=
  match r with
  | .eof => true
  | .err => true
  | .byte b => b ≠ P2P_TIMED_MESSAGE

/-! Section: `handle_p2p_connections_from_federates` (federate.c:320) -/

/-- Effect of one accepted connection in
`handle_p2p_connections_from_federates`: the response bytes written (if
any), whether the accept loop closed the socket, the remote federate id
whose inbound slot receives the socket (if stored), and whether a
reader thread was spawned (the connection then counts toward
`_lf_number_of_inbound_physical_connections`). -/
structure P2PAcceptResult where
  response : Option (List Nat)
  closed : Bool
  stored : Option Nat
  spawned : Bool
deriving DecidableEq, Repr

/-- Processing of one accepted connection in
`handle_p2p_connections_from_federates` (federate.c:323-395).
`fid` is the local `federation_id` byte string; `hdrRead` is the result
of `read_from_socket2(socket_id, 4, buffer)` — the byte count returned
and the bytes placed in the buffer; `idRead` likewise for the
federation-identifier read of the declared length.  The result is
`none` on the one path where the C program's behavior is undefined, and
`some` of the connection's outcome everywhere else.
  * If the header read does not return 4 bytes or its first byte is not
    `P2P_SENDING_FED_ID`: when the byte count is ≥ 0, write
    `[REJECT, WRONG_SERVER]` and close; otherwise no response and no
    close; the connection is not counted (federate.c:337-348).
  * Then read `buffer[3]` bytes of remote federation identifier into a
    stack array `char remote_federation_id[federation_id_length]` of
    exactly the declared size, and test `bytes_read !=
    federation_id_length || strncmp(federation_id, remote,
    strnlen(federation_id, 255)) != 0` (federate.c:351-366); the
    short-circuit evaluates `strncmp` only on a full read.  When the
    declared length is smaller than `strnlen(federation_id, 255)` and
    every received byte matches the corresponding local byte, `strncmp`
    finds no mismatch and no NUL within the array and reads past its
    end — undefined behavior: the model returns `none`, fixing no
    outcome.  Otherwise the comparison is defined; if the test holds:
    when the count is ≥ 0, write `[REJECT, FEDERATION_ID_DOES_NOT_MATCH]`
    and close; not counted.
  * Otherwise store the socket in the inbound table at the remote id
    extracted from bytes 1-2, write `[ACK]`, and spawn a reader thread
    (federate.c:369-395). -/
def handle_p2p_connection (fid : List Nat)
    (hdrRead : Int × List Nat) (idRead : Int × List Nat) :
    Option P2PAcceptResult :=
  let n1 := hdrRead.1
  let buf := hdrRead.2
  if n1 ≠ 4 ∨ buf.headD 0 ≠ P2P_SENDING_FED_ID then
    if 0 ≤ n1 then some ⟨some [REJECT, WRONG_SERVER], true, none, false⟩
    else some ⟨none, false, none, false⟩
  else
    let declaredLen := buf.getD 3 0
    let n2 := idRead.1
    let remoteId := idRead.2
    if n2 = (declaredLen : Int) ∧ declaredLen < strnlen fid 255 ∧
        fid.take declaredLen = remoteId.take declaredLen then
      none
    else if n2 ≠ (declaredLen : Int) ∨ strncmp fid remoteId (strnlen fid 255) ≠ 0 then
      if 0 ≤ n2 then some ⟨some [REJECT, FEDERATION_ID_DOES_NOT_MATCH], true, none, false⟩
      else some ⟨none, false, none, false⟩
    else
      some ⟨some [ACK], false, some (extract_ushort (buf.drop 1)), true⟩

/-! Section: `connect_to_rti` (federate.c:558) -/

/-- An event in the `connect_to_rti` port-scan loop: a TCP connect attempt
on a port, the `CONNECT_RETRY_INTERVAL` sleep before a new scan pass,
the fatal give-up (`error_print_and_exit`), or a successful
connection. -/
inductive RtiEvent where
  | attempt (port : Nat)
  | sleepRetry
  | giveUp
  | connected (port : Nat)
deriving DecidableEq, Repr

/-- Final outcome of `connect_to_rti`. -/
inductive RtiOutcome where
  | connected (port : Nat)
  | fatalError
  | outOfFuel
deriving DecidableEq, Repr

/-- The `while (result < 0)` loop of `connect_to_rti` (federate.c:573-679)
when no port was specified (`specified port == 0`, so scanning starts at
`STARTING_PORT = SP`; `PRL = PORT_RANGE_LIMIT`, `N = CONNECT_NUM_RETRIES`
are `rti.h` configuration constants, taken as parameters).  `env att`
tells whether the `att`-th TCP connect succeeds; the `FED_ID` handshake
after a successful connect is abstracted as accepted.  Arguments:
remaining fuel, current `port`, `count_retries`, attempt index.
Each iteration connects to `port`; on failure with
`SP ≤ port ≤ SP + PRL` it increments `port` and continues
(federate.c:601-614); otherwise it wraps `port` back to `SP` when
`port = SP + PRL + 1`, increments `count_retries`, exits fatally when
`count_retries > N`, and otherwise sleeps `CONNECT_RETRY_INTERVAL` and
retries (federate.c:620-637). -/
def connectToRtiLoop (SP PRL N : Nat) (env : Nat → Bool) :
    Nat → Nat → Nat → Nat → List RtiEvent × RtiOutcome
  | 0, _, _, _ => ([], .outOfFuel)
  | fuel + 1, port, retries, att =>
    if env att then
      ([.attempt port, .connected port], .connected port)
    else if SP ≤ port ∧ port ≤ SP + PRL then
      let r := connectToRtiLoop SP PRL N env fuel (port + 1) retries (att + 1)
      (.attempt port :: r.1, r.2)
    else
      let port2 := if port = SP + PRL + 1 then SP else port
      if N < retries + 1 then ([.attempt port, .giveUp], .fatalError)
      else
        let r := connectToRtiLoop SP PRL N env fuel port2 (retries + 1) (att + 1)
        (.attempt port :: .sleepRetry :: r.1, r.2)

/-- Function `connect_to_rti(id, hostname, 0)` (federate.c:558-680) with an
unspecified port: run the scan loop from `STARTING_PORT` with
`count_retries = 0`. -/
def connect_to_rti (SP PRL N : Nat) (env : Nat → Bool) (fuel : Nat) :
    List RtiEvent × RtiOutcome :=
  connectToRtiLoop SP PRL N env fuel SP 0 0

/-- Connect attempts on `k` consecutive ports starting at `p`. -/
def portsFrom (p : Nat) : Nat → List RtiEvent
  | 0 => []
  | k + 1 => .attempt p :: portsFrom (p + 1) k

/-- The connect attempts of one fully failing scan pass of
`connect_to_rti`: consecutive ports `SP` through `SP + PRL + 1` — the
loop also tries port `SP + PRL + 1` (one past the advertised range)
before the wrap test `port == SP + PRL + 1` fires. -/
def scanPassAttempts (SP PRL : Nat) : List RtiEvent :=
  portsFrom SP (PRL + 2)

/-- The event trace of `connect_to_rti` when every TCP connect fails,
with `m` retry sleeps remaining before the fatal exit: `m + 1` scan
passes, the first `m` each followed by the `CONNECT_RETRY_INTERVAL`
sleep, the last ending in `error_print_and_exit`. -/
def failScanTrace (SP PRL : Nat) : Nat → List RtiEvent
  | 0 => scanPassAttempts SP PRL ++ [.giveUp]
  | m + 1 => scanPassAttempts SP PRL ++ .sleepRetry :: failScanTrace SP PRL m

/-- Whether an `RtiEvent` is a TCP connect attempt. -/
def isAttempt : RtiEvent → Bool
  | .attempt _ => true
  | _ => false

/-! Section: `connect_to_federate` (federate.c:420) -/

/-- The TCP-connect retry loop of `connect_to_federate(id)`
(federate.c:474-547), after the RTI has supplied the peer's address.
`fds att` is the socket descriptor returned by `socket()` on the
`att`-th iteration (stored into
`_lf_federate_sockets_for_outbound_physical_connections[id]` before the
connect); `connectOk att` tells whether that connect succeeds, `ackOk
att` whether the subsequent `P2P_SENDING_FED_ID` handshake receives
`ACK` (a `REJECT` sets `result = -1` and retries without touching
`count_retries`, federate.c:535-541).  On connect failure it increments
`count_retries` and, when that exceeds `N = CONNECT_NUM_RETRIES`,
returns normally — a soft error — leaving the table entry holding the
last (unconnected) descriptor (federate.c:497-511).  Returns
`some (connected, tableEntry)` on loop exit, `none` when out of fuel. -/
def connectToFederateLoop (N : Nat) (fds : Nat → Int) (connectOk ackOk : Nat → Bool) :
    Nat → Nat → Nat → Option (Bool × Int)
  | 0, _, _ => none
  | fuel + 1, retries, att =>
    let fd := fds att
    if connectOk att then
      if ackOk att then some (true, fd)
      else connectToFederateLoop N fds connectOk ackOk fuel retries (att + 1)
    else
      if N < retries + 1 then some (false, fd)
      else connectToFederateLoop N fds connectOk ackOk fuel (retries + 1) (att + 1)

/-- The connect phase of `connect_to_federate(id)` (federate.c:474-547),
started with `count_retries = 0`. -/
def connect_to_federate (N : Nat) (fds : Nat → Int) (connectOk ackOk : Nat → Bool)
    (fuel : Nat) : Option (Bool × Int) :=
  connectToFederateLoop N fds connectOk ackOk fuel 0 0

end Federate

namespace ArduinoClock

/-! Section: `lf_clock_gettime` (lf_arduino_support.c:116) -/

/-- The static timing state of `lf_arduino_support.c` (lines 59-60):
`_lf_time_us_high`, the high word incremented at each detected overflow
of the 32-bit microsecond counter, and `_lf_time_us_low_last`,
documented as the last value read from the 32-bit timer.  Both are
`uint32_t`. -/
structure ClockState where
  high : Nat
  lowLast : Nat
deriving DecidableEq, Repr

/-- Initial state: both variables are zero-initialized (lf_arduino_support.c:59-60). -/
def clockStateInit : ClockState := ⟨0, 0⟩

/-- Function `lf_clock_gettime(t)` (lf_arduino_support.c:116-130) at a moment when
the true 64-bit elapsed microsecond count is `trueUs`, so `micros()`
returns `trueUs % 2^32`.  If the reading is below `_lf_time_us_low_last`
the high word is incremented; the returned time is
`COMBINE_HI_LO(_lf_time_us_high, now_us_low) * 1000` truncated to 64
bits.  Note the code never assigns `_lf_time_us_low_last`, so the model
leaves it unchanged, exactly as the source does. -/
def lf_clock_gettime (s : ClockState) (trueUs : Nat) : ClockState × Nat :=
  let nowUsLow := trueUs % 2 ^ 32
  let high := if nowUsLow < s.lowLast then (s.high + 1) % 2 ^ 32 else s.high
  let s' : ClockState := ⟨high, s.lowLast⟩
  (s', (high * 2 ^ 32 + nowUsLow) * 1000 % 2 ^ 64)

/-- A sequence of `lf_clock_gettime` calls at the given true elapsed
microsecond counts: the list of returned nanosecond times. -/
def clockRun (s : ClockState) : List Nat → List Nat
  | [] => []
  | u :: us =>
    let r := lf_clock_gettime s u
    r.2 :: clockRun r.1 us

end ArduinoClock

namespace Federate

/-! Section: Helper lemmas -/

/-- Every exit of the `__next_event_time` wait loop is caused by one of the
supplied wake-ups: either a wake with `__tag_pending` still true whose
queue head is earlier than the requested time, or a wake showing
`__tag_pending` false whose `__tag` is returned. -/
theorem netWaitLoop_cases (t : Int) :
    ∀ (wakes : List Wake) (r : Int) (p : Bool),
      netWaitLoop t wakes = some (r, p) →
      (∃ w ∈ wakes, w.tagPending = true ∧ w.head = some r ∧ r < t ∧ p = true) ∨
      (∃ w ∈ wakes, w.tagPending = false ∧ w.tag = r ∧ p = false)
  | [], r, p => by intro h; simp [netWaitLoop] at h
  | w :: ws, r, p => by
    intro h
    rw [netWaitLoop] at h
    by_cases hp : w.tagPending
    · rw [if_pos hp] at h
      rcases hh : w.head with _ | hv
      · rw [hh] at h
        rcases netWaitLoop_cases t ws r p h with ⟨w', hw', hrest⟩ | ⟨w', hw', hrest⟩
        · exact Or.inl ⟨w', List.mem_cons_of_mem _ hw', hrest⟩
        · exact Or.inr ⟨w', List.mem_cons_of_mem _ hw', hrest⟩
      · rw [hh] at h
        dsimp only at h
        by_cases hlt : hv < t
        · rw [if_pos hlt] at h
          obtain ⟨h1, h2⟩ := Prod.mk.injEq .. ▸ Option.some.injEq .. ▸ h
          exact Or.inl ⟨w, List.mem_cons_self .., hp, by rw [hh, h1], h1 ▸ hlt, h2.symm⟩
        · rw [if_neg hlt] at h
          rcases netWaitLoop_cases t ws r p h with ⟨w', hw', hrest⟩ | ⟨w', hw', hrest⟩
          · exact Or.inl ⟨w', List.mem_cons_of_mem _ hw', hrest⟩
          · exact Or.inr ⟨w', List.mem_cons_of_mem _ hw', hrest⟩
    · rw [if_neg hp] at h
      obtain ⟨h1, h2⟩ := Prod.mk.injEq .. ▸ Option.some.injEq .. ▸ h
      exact Or.inr ⟨w, List.mem_cons_self .., Bool.not_eq_true _ ▸ hp, h1, h2.symm⟩

/-! Section: Claim C1 -/

/-- C1 counterexample.  A wake-up showing `__tag_pending` false makes
`__next_event_time(10)` return the granted `__tag`: with a grant of 20
it returns 20 > 10, violating `t ≤ t_req`; with a grant of 5 it returns
5, which is neither `t_req` nor a head-of-queue time (the causing wake
observed an empty queue), violating the claimed disjunction. -/
theorem C1_counterexample :
    (__next_event_time ⟨NEVER, false, true, false⟩ 10 [⟨false, 20, none⟩]).result
        = some (20, false) ∧
    ¬ ((20 : Int) ≤ 10) ∧
    (__next_event_time ⟨NEVER, false, true, false⟩ 10 [⟨false, 5, none⟩]).result
        = some (5, false) ∧
    (5 : Int) ≠ 10 ∧
    Wake.head ⟨false, 5, none⟩ = none := by
  refine ⟨by decide, by decide, by decide, by decide, rfl⟩

/-- C1 (amended): every value `r` returned by `__next_event_time(t)` is
the requested time `t` itself, or the head-of-event-queue time observed
at the wake-up that caused the return (then `r < t` and `__tag_pending`
is still true), or the `__tag` observed at the wake-up that showed the
TAG had arrived. -/
theorem C1_return_value (s : FedState) (t : Int) (wakes : List Wake)
    (r : Int) (p : Bool)
    (h : (__next_event_time s t wakes).result = some (r, p)) :
    r = t ∨
    (∃ w ∈ wakes, w.tagPending = true ∧ w.head = some r ∧ r < t ∧ p = true) ∨
    (∃ w ∈ wakes, w.tagPending = false ∧ w.tag = r ∧ p = false) := by
  rw [__next_event_time] at h
  by_cases h1 : !s.hasDownstream && !s.hasUpstream
  · rw [if_pos h1] at h
    exact Or.inl (Prod.mk.injEq .. ▸ Option.some.injEq .. ▸ h).1.symm
  · rw [if_neg h1] at h
    by_cases h2 : s.tag ≥ t
    · rw [if_pos h2] at h
      exact Or.inl (Prod.mk.injEq .. ▸ Option.some.injEq .. ▸ h).1.symm
    · rw [if_neg h2] at h
      by_cases h3 : !s.hasUpstream
      · rw [if_pos h3] at h
        exact Or.inl (Prod.mk.injEq .. ▸ Option.some.injEq .. ▸ h).1.symm
      · rw [if_neg h3] at h
        exact Or.inr (netWaitLoop_cases t wakes r p h)

/-- C1 witness: the amended theorem applied at a concrete blocked call
woken by a physical action scheduling an event at time 3 < 10. -/
theorem C1_return_value_witness :
    (3 : Int) = 10 ∨
    (∃ w ∈ [(⟨true, NEVER, some 3⟩ : Wake)],
        w.tagPending = true ∧ w.head = some 3 ∧ (3 : Int) < 10 ∧ true = true) ∨
    (∃ w ∈ [(⟨true, NEVER, some 3⟩ : Wake)],
        w.tagPending = false ∧ w.tag = 3 ∧ true = false) :=
  C1_return_value ⟨NEVER, false, true, false⟩ 10 [⟨true, NEVER, some 3⟩] 3 true
    (by decide)

/-! Section: Claim C2 -/

/-- C2 counterexample.  `handle_time_advance_grant` installs the received
grant unconditionally: from `__tag = 10`, a grant of 5 leaves
`__tag = 5 < 10`, so a handled TIME_ADVANCE_GRANT message can decrease
`__tag` — nothing in the code checks or enforces monotonicity. -/
theorem C2_counterexample :
    (handle_time_advance_grant ⟨10, true, true, false⟩ 5).tag = 5 ∧
    ¬ (FedState.tag ⟨10, true, true, false⟩
        ≤ (handle_time_advance_grant ⟨10, true, true, false⟩ 5).tag) := by
  refine ⟨rfl, by decide⟩

/-- C2 (amended): `__tag` is initialized to the sentinel `NEVER`;
`handle_time_advance_grant` sets `__tag` to exactly the received grant
and clears `__tag_pending`, so `__tag` is non-decreasing across a
handled TIME_ADVANCE_GRANT exactly under the trusted (unchecked)
assumption that the received grant is at least the current `__tag`. -/
theorem C2_tag_update (s : FedState) (g : Int) :
    tagInit = NEVER ∧
    (handle_time_advance_grant s g).tag = g ∧
    (handle_time_advance_grant s g).tagPending = false ∧
    (s.tag ≤ g → s.tag ≤ (handle_time_advance_grant s g).tag) :=
  ⟨rfl, rfl, rfl, fun h => h⟩

/-- C2 witness: the amended theorem applied at a concrete state with a
non-decreasing grant. -/
theorem C2_tag_update_witness :
    FedState.tag ⟨0, false, true, true⟩
      ≤ (handle_time_advance_grant ⟨0, false, true, true⟩ 7).tag :=
  (C2_tag_update ⟨0, false, true, true⟩ 7).2.2.2 (by decide)

/-! Section: Claim C3 -/

/-- C3: the fast paths of `__next_event_time(t)`.  An isolated federate
(no upstream, no downstream) returns `t` with nothing sent to the RTI;
otherwise, if `__tag ≥ t` it returns `t` with nothing sent; otherwise
it sends exactly one `NEXT_EVENT_TIME(t)` frame, and if the federate
has no upstream federates it then returns `t` immediately without
consulting any wake-up. -/
theorem C3_fast_paths (s : FedState) (t : Int) (wakes : List Wake) :
    (s.hasUpstream = false → s.hasDownstream = false →
      __next_event_time s t wakes = ⟨[], some (t, s.tagPending)⟩) ∧
    ((s.hasUpstream = true ∨ s.hasDownstream = true) → t ≤ s.tag →
      __next_event_time s t wakes = ⟨[], some (t, s.tagPending)⟩) ∧
    ((s.hasUpstream = true ∨ s.hasDownstream = true) → s.tag < t →
      (__next_event_time s t wakes).sent = [send_time NEXT_EVENT_TIME t]) ∧
    (s.hasUpstream = false → s.hasDownstream = true → s.tag < t →
      __next_event_time s t wakes
        = ⟨[send_time NEXT_EVENT_TIME t], some (t, s.tagPending)⟩) := by
  refine ⟨fun hu hd => ?_, fun hc ht => ?_, fun hc ht => ?_, fun hu hd ht => ?_⟩
  · rw [__next_event_time, if_pos (by rw [hu, hd]; rfl)]
  · have h1 : (!s.hasDownstream && !s.hasUpstream) = false := by
      rcases hc with h | h <;> rw [h] <;> simp
    rw [__next_event_time, h1]
    rw [if_neg (by simp), if_pos (ge_iff_le.mpr ht)]
  · have h1 : (!s.hasDownstream && !s.hasUpstream) = false := by
      rcases hc with h | h <;> rw [h] <;> simp
    rw [__next_event_time, h1]
    rw [if_neg (by simp), if_neg (not_le.mpr ht)]
    cases h3 : s.hasUpstream <;> simp
  · rw [__next_event_time, if_neg (by rw [hu, hd]; simp),
      if_neg (not_le.mpr ht), if_pos (by rw [hu]; rfl)]

/-- C3 witness: the fast paths evaluated at concrete calls — an isolated
federate returning 1000000 with nothing sent, and a downstream-only
federate sending one little-endian `NEXT_EVENT_TIME(1000000)` frame and
returning immediately. -/
theorem C3_fast_paths_witness :
    __next_event_time ⟨NEVER, false, false, false⟩ 1000000 []
      = ⟨[], some (1000000, false)⟩ ∧
    __next_event_time ⟨NEVER, false, false, true⟩ 1000000 []
      = ⟨[[6, 64, 66, 15, 0, 0, 0, 0, 0]], some (1000000, false)⟩ :=
  ⟨(C3_fast_paths ⟨NEVER, false, false, false⟩ 1000000 []).1 rfl rfl,
    by
      have h := (C3_fast_paths ⟨NEVER, false, false, true⟩ 1000000 []).2.2.2
        rfl rfl (by decide)
      rw [h]
      decide⟩

/-! Section: Claim C4 -/

/-- C4: inside the wait loop of `__next_event_time(t)`, a wake-up that
finds `__tag_pending` still true and a queue-head time `h < t` makes the
call return `h` with `__tag_pending` left true (no TAG has arrived); a
wake-up that finds the queue empty or its head at a time `≥ t` leaves
the waiter waiting on the remaining wake-ups.  When the federate has
upstream federates and no grant covers `t`, `__next_event_time` is
decided by exactly this loop. -/
theorem C4_queue_wake (t : Int) (w : Wake) (ws : List Wake) (s : FedState) :
    (w.tagPending = true → ∀ h, w.head = some h → h < t →
      netWaitLoop t (w :: ws) = some (h, true)) ∧
    (w.tagPending = true → (w.head = none ∨ ∃ h, w.head = some h ∧ t ≤ h) →
      netWaitLoop t (w :: ws) = netWaitLoop t ws) ∧
    (s.hasUpstream = true → s.tag < t →
      (__next_event_time s t (w :: ws)).result = netWaitLoop t (w :: ws)) := by
  refine ⟨fun hp h hh hlt => ?_, fun hp hcase => ?_, fun hu ht => ?_⟩
  · rw [netWaitLoop, if_pos hp, hh]
    dsimp only
    rw [if_pos hlt]
  · rw [netWaitLoop, if_pos hp]
    rcases hcase with hh | ⟨h, hh, hge⟩
    · rw [hh]
    · rw [hh]
      dsimp only
      rw [if_neg (not_lt.mpr hge)]
  · rw [__next_event_time, if_neg (by rw [hu]; simp),
      if_neg (not_le.mpr ht)]
    rw [hu]
    rfl

/-- C4 witness: concrete wake-ups — a physical action at time 5 < 10
returns 5 with `__tag_pending` still true; a queue head at 12 ≥ 10
keeps the waiter waiting (the call stays blocked when no further
wake-up arrives). -/
theorem C4_queue_wake_witness :
    netWaitLoop 10 [⟨true, NEVER, some 5⟩] = some (5, true) ∧
    netWaitLoop 10 [⟨true, NEVER, some 12⟩] = netWaitLoop 10 [] :=
  ⟨(C4_queue_wake 10 ⟨true, NEVER, some 5⟩ [] ⟨NEVER, false, true, false⟩).1
      rfl 5 rfl (by decide),
    (C4_queue_wake 10 ⟨true, NEVER, some 12⟩ [] ⟨NEVER, false, true, false⟩).2.1
      rfl (Or.inr ⟨12, rfl, by decide⟩)⟩

/-! Section: Claim C7 -/

/-- C7: `handle_timed_message` faults (the `assert` fails) exactly when
the destination-federate field of the header differs from
`_lf_my_fed_id`; otherwise it schedules the payload on the action for
the header's port with delay exactly the message timestamp minus the
current logical time — the delay is passed to the scheduler unmodified,
so it may be negative. -/
theorem C7_dest_and_delay (myFedId : Nat) (lt : Int) (buffer : List Nat) :
    (handle_timed_message myFedId lt buffer = none ↔
      extract_ushort (buffer.drop 2) ≠ myFedId) ∧
    (∀ m, handle_timed_message myFedId lt buffer = some m →
      extract_ushort (buffer.drop 2) = myFedId ∧
      m.delay = extract_ll (buffer.drop 8) - lt ∧
      m.portId = extract_ushort buffer ∧
      m.length = extract_int (buffer.drop 4)) := by
  by_cases h : myFedId = extract_ushort (buffer.drop 2)
  · rw [handle_timed_message]
    rw [if_pos h]
    refine ⟨⟨fun hc => absurd hc (by simp), fun hc => absurd h.symm hc⟩, ?_⟩
    intro m hm
    obtain rfl := (Option.some.injEq .. ▸ hm).symm
    exact ⟨h.symm, rfl, rfl, rfl⟩
  · rw [handle_timed_message]
    rw [if_neg h]
    exact ⟨⟨fun _ => fun he => h he.symm, fun _ => rfl⟩, fun m hm => absurd hm (by simp)⟩

/-- C7 witness: a concrete 16-byte header — port 7, destination federate
3, length 2, timestamp 5 — handled by federate 3 at logical time 100
schedules on port 7 with the negative delay `5 - 100 = -95`, passed
through unmodified. -/
theorem C7_dest_and_delay_witness :
    extract_ushort (([7, 0, 3, 0, 2, 0, 0, 0, 5, 0, 0, 0, 0, 0, 0, 0] : List Nat).drop 2) = 3 ∧
    ScheduledMsg.delay ⟨7, -95, 2⟩
        = extract_ll (([7, 0, 3, 0, 2, 0, 0, 0, 5, 0, 0, 0, 0, 0, 0, 0] : List Nat).drop 8) - 100 ∧
    ScheduledMsg.portId ⟨7, -95, 2⟩
        = extract_ushort ([7, 0, 3, 0, 2, 0, 0, 0, 5, 0, 0, 0, 0, 0, 0, 0] : List Nat) ∧
    ScheduledMsg.length ⟨7, -95, 2⟩
        = extract_int (([7, 0, 3, 0, 2, 0, 0, 0, 5, 0, 0, 0, 0, 0, 0, 0] : List Nat).drop 4) :=
  (C7_dest_and_delay 3 100 [7, 0, 3, 0, 2, 0, 0, 0, 5, 0, 0, 0, 0, 0, 0, 0]).2
    ⟨7, -95, 2⟩ (by decide)

/-! Section: Claim C8 -/

/-- Once the reader loop of `listen_to_federates` runs with its socket
already closed, the next read fails and the loop exits through the
transport-error path with the slot cleared. -/
theorem listenLoop_closed (reads : List ReadRes) (slot : Int) :
    listenLoop reads true slot = some (true, -1) := by
  cases reads with
  | nil => rfl
  | cons r rest => cases r <;> rfl

/-- The reader loop of `listen_to_federates` exits only with the socket
closed and the inbound slot reset to -1, and it exits precisely when the
read-result stream contains an EOF, a transport error, or an
unrecognized message-type byte. -/
theorem listenLoop_sound :
    ∀ (reads : List ReadRes) (slot : Int),
      (∀ c s, listenLoop reads false slot = some (c, s) → c = true ∧ s = -1) ∧
      ((listenLoop reads false slot).isSome = true ↔
        ∃ r ∈ reads, terminatingRead r = true)
  | [], slot => by
    refine ⟨fun c s h => absurd h (by rw [listenLoop]; simp), ?_⟩
    rw [listenLoop]
    simp
  | .eof :: rest, slot => by
    refine ⟨fun c s h => ?_, ?_⟩
    · rw [listenLoop] at h
      obtain ⟨h1, h2⟩ := Prod.mk.injEq .. ▸ Option.some.injEq .. ▸ h
      exact ⟨h1.symm, h2.symm⟩
    · rw [listenLoop]
      exact ⟨fun _ => ⟨.eof, List.mem_cons_self .., rfl⟩, fun _ => rfl⟩
  | .err :: rest, slot => by
    refine ⟨fun c s h => ?_, ?_⟩
    · rw [listenLoop] at h
      obtain ⟨h1, h2⟩ := Prod.mk.injEq .. ▸ Option.some.injEq .. ▸ h
      exact ⟨h1.symm, h2.symm⟩
    · rw [listenLoop]
      exact ⟨fun _ => ⟨.err, List.mem_cons_self .., rfl⟩, fun _ => rfl⟩
  | .byte b :: rest, slot => by
    by_cases hb : b = P2P_TIMED_MESSAGE
    · have heq : listenLoop (.byte b :: rest) false slot = listenLoop rest false slot := by
        rw [listenLoop, if_pos hb]
      obtain ⟨ih1, ih2⟩ := listenLoop_sound rest slot
      refine ⟨fun c s h => ih1 c s (heq ▸ h), ?_⟩
      rw [heq, ih2]
      constructor
      · rintro ⟨r, hr, hterm⟩
        exact ⟨r, List.mem_cons_of_mem _ hr, hterm⟩
      · rintro ⟨r, hr, hterm⟩
        rcases List.mem_cons.mp hr with rfl | hr'
        · exact absurd hterm (by simp [terminatingRead, hb])
        · exact ⟨r, hr', hterm⟩
    · have heq : listenLoop (.byte b :: rest) false slot = some (true, -1) := by
        rw [listenLoop, if_neg hb, listenLoop_closed]
      refine ⟨fun c s h => ?_, ?_⟩
      · rw [heq] at h
        obtain ⟨h1, h2⟩ := Prod.mk.injEq .. ▸ Option.some.injEq .. ▸ h
        exact ⟨h1.symm, h2.symm⟩
      · rw [heq]
        exact ⟨fun _ => ⟨.byte b, List.mem_cons_self .., by simp [terminatingRead, hb]⟩,
          fun _ => rfl⟩

/-- C8: a peer reader task (`listen_to_federates`) terminates exactly
when it observes EOF, a transport error, or an unrecognized
message-type byte on its socket, and whenever it terminates, the socket
has been closed and the inbound connection-table slot for the peer has
been reset to -1. -/
theorem C8_reader_cleanup (reads : List ReadRes) (sock : Int) :
    (∀ c s, listen_to_federates reads sock = some (c, s) → c = true ∧ s = -1) ∧
    ((listen_to_federates reads sock).isSome = true ↔
      ∃ r ∈ reads, terminatingRead r = true) :=
  listenLoop_sound reads sock

/-- C8 witness: a reader that handles one `P2P_TIMED_MESSAGE` and then
receives an unrecognized type byte exits with the socket closed and the
slot cleared, and the stream indeed contains a terminating read. -/
theorem C8_reader_cleanup_witness :
    (true = true ∧ (-1 : Int) = -1) ∧
    (∃ r ∈ [ReadRes.byte P2P_TIMED_MESSAGE, ReadRes.byte 99],
      terminatingRead r = true) :=
  ⟨(C8_reader_cleanup [ReadRes.byte P2P_TIMED_MESSAGE, ReadRes.byte 99] 7).1
      true (-1) (by decide),
    (C8_reader_cleanup [ReadRes.byte P2P_TIMED_MESSAGE, ReadRes.byte 99] 7).2.mp
      (by decide)⟩

end Federate

namespace ArduinoClock

/-! Section: Claim C6 -/

/-- C6: the failing input.  `lf_clock_gettime` never assigns
`_lf_time_us_low_last` (its own comment says that variable holds "the
last value we read from the 32 bit Arduino timer"), so the wraparound
test `now_us_low < _lf_time_us_low_last` compares against the initial 0
and never fires.  Two reads 6 microseconds apart — well within one
wraparound period, so the documented precondition holds — straddling
the 32-bit wrap at `2^32` microseconds return 4294967295000 ns and then
5000 ns: the clock is not monotonic and the second value differs from
the true elapsed-microsecond count times 1000. -/
theorem C6_wraparound_missed :
    ArduinoClock.clockRun ArduinoClock.clockStateInit [2 ^ 32 - 1, 2 ^ 32 + 5]
        = [4294967295000, 5000] ∧
    (5000 : Nat) < 4294967295000 ∧
    (2 ^ 32 + 5) - (2 ^ 32 - 1) = 6 ∧
    (2 ^ 32 + 5) * 1000 = 4294967301000 ∧
    (5000 : Nat) ≠ 4294967301000 := by
  refine ⟨by decide, by decide, by decide, by decide, by decide⟩

end ArduinoClock

namespace Federate

/-! Section: Claim C9 -/

/-- On a byte string with no NUL bytes and length within the cap,
`strnlen` returns the length. -/
theorem strnlen_eq_length :
    ∀ (s : List Nat) (m : Nat), s.length ≤ m → (∀ b ∈ s, b ≠ 0) →
      strnlen s m = s.length
  | [], m => by intro _ _; cases m <;> rfl
  | c :: rest, 0 => by intro h _; exact absurd h (by simp)
  | c :: rest, m + 1 => by
    intro hlen hnz
    rw [strnlen, if_neg (hnz c (List.mem_cons_self ..))]
    rw [strnlen_eq_length rest m (by simpa using hlen)
      (fun b hb => hnz b (List.mem_cons_of_mem _ hb))]
    simp [Nat.add_comm]

/-- For a NUL-free needle `a`, `strncmp a b a.length` returns 0 exactly
when `b` starts with `a` (in the model, bytes past the end of `b` read
as NUL and therefore mismatch every byte of `a`). -/
theorem strncmp_zero_iff :
    ∀ (a b : List Nat), (∀ x ∈ a, x ≠ 0) →
      (strncmp a b a.length = 0 ↔ b.take a.length = a)
  | [], b => by intro _; simp [strncmp]
  | c :: rest, [] => by
    intro hnz
    have hc0 : c ≠ 0 := hnz c (List.mem_cons_self ..)
    rw [List.length_cons, strncmp]
    dsimp only [List.headD, List.tail]
    rw [if_pos hc0]
    constructor
    · intro h0
      have : c = 0 := by exact_mod_cast sub_eq_zero.mp h0
      exact absurd this hc0
    · intro htake
      rw [List.take_nil] at htake
      exact absurd htake (by simp)
  | c :: rest, d :: bs => by
    intro hnz
    have hc0 : c ≠ 0 := hnz c (List.mem_cons_self ..)
    rw [List.length_cons, strncmp]
    dsimp only [List.headD, List.tail]
    by_cases hcd : c = d
    · rw [if_neg (by simpa using hcd), if_neg hc0]
      rw [strncmp_zero_iff rest bs (fun x hx => hnz x (List.mem_cons_of_mem _ hx))]
      subst hcd
      simp [List.take_succ_cons]
    · rw [if_pos hcd]
      constructor
      · intro h0
        exact absurd (Nat.cast_injective (sub_eq_zero.mp h0)) hcd
      · intro htake
        rw [List.take_succ_cons] at htake
        exact absurd ((List.cons.injEq .. ▸ htake).1.symm) hcd

/-- C9 counterexample.  Local federation id `[1, 2]`; the remote declares
a 3-byte federation id `[1, 2, 9]`, which differs from the local one —
yet because the code compares only the first
`strnlen(federation_id, 255)` bytes, the connection is answered with
`ACK`, its socket stored at the declared id 5, and a reader thread
spawned, instead of being rejected. -/
theorem C9_counterexample :
    handle_p2p_connection [1, 2] (4, [P2P_SENDING_FED_ID, 5, 0, 3]) (3, [1, 2, 9])
        = some ⟨some [ACK], false, some 5, true⟩ ∧
    ([1, 2, 9] : List Nat) ≠ [1, 2] := by
  refine ⟨by decide, by decide⟩

/-- C9 (amended): in `handle_p2p_connections_from_federates`, for a
fully read handshake the accept loop behaves as follows.  A first frame
whose type byte is not `P2P_SENDING_FED_ID` is answered with
`REJECT`/`WRONG_SERVER` and closed.  For the remote federation
identifier the code compares only the first
`strnlen(federation_id, 255)` bytes, so: an identifier at least as long
as the local `federation_id` that does not have it as a byte-prefix is
answered with `REJECT`/`FEDERATION_ID_DOES_NOT_MATCH` and closed; so is
an identifier shorter than the local one that differs from the local
identifier's corresponding prefix within its received bytes; but an
identifier shorter than the local one all of whose received bytes match
makes `strncmp` read past the end of the received buffer — undefined
behavior, no outcome guaranteed.  A connection passing the comparison —
in particular one whose identifier strictly extends the local one — is
answered with `ACK`, its socket stored in the inbound table at the
remote federate's declared id, and a reader thread spawned. -/
theorem C9_handshake (fid buf rid : List Nat) (n1 : Int)
    (hnz : ∀ x ∈ fid, x ≠ 0) (hcap : fid.length ≤ 255)
    (hdecl : rid.length = buf.getD 3 0) :
    (buf.headD 0 ≠ P2P_SENDING_FED_ID → 0 ≤ n1 →
      handle_p2p_connection fid (n1, buf) ((rid.length : Int), rid)
        = some ⟨some [REJECT, WRONG_SERVER], true, none, false⟩) ∧
    (buf.headD 0 = P2P_SENDING_FED_ID → fid.length ≤ rid.length →
      rid.take fid.length ≠ fid →
      handle_p2p_connection fid (4, buf) ((rid.length : Int), rid)
        = some ⟨some [REJECT, FEDERATION_ID_DOES_NOT_MATCH], true, none, false⟩) ∧
    (buf.headD 0 = P2P_SENDING_FED_ID → rid.length < fid.length →
      rid ≠ fid.take rid.length →
      handle_p2p_connection fid (4, buf) ((rid.length : Int), rid)
        = some ⟨some [REJECT, FEDERATION_ID_DOES_NOT_MATCH], true, none, false⟩) ∧
    (buf.headD 0 = P2P_SENDING_FED_ID → rid.length < fid.length →
      rid = fid.take rid.length →
      handle_p2p_connection fid (4, buf) ((rid.length : Int), rid) = none) ∧
    (buf.headD 0 = P2P_SENDING_FED_ID → fid.length ≤ rid.length →
      rid.take fid.length = fid →
      handle_p2p_connection fid (4, buf) ((rid.length : Int), rid)
        = some ⟨some [ACK], false, some (extract_ushort (buf.drop 1)), true⟩) := by
  have hsn : strnlen fid 255 = fid.length := strnlen_eq_length fid 255 hcap hnz
  have hsc : strncmp fid rid (strnlen fid 255) = 0 ↔ rid.take fid.length = fid := by
    rw [hsn]; exact strncmp_zero_iff fid rid hnz
  refine ⟨fun hb h1 => ?_, fun hb hlen hpre => ?_, fun hb hlt hpre => ?_,
    fun hb hlt hpre => ?_, fun hb hlen hpre => ?_⟩
  · rw [handle_p2p_connection]
    rw [if_pos (Or.inr hb), if_pos h1]
  · rw [handle_p2p_connection]
    rw [if_neg (by push_neg; exact ⟨rfl, hb⟩)]
    rw [if_neg (by
      rintro ⟨-, hB, -⟩
      rw [hsn, ← hdecl] at hB
      omega)]
    rw [if_pos (Or.inr (fun h0 => hpre (hsc.mp h0)))]
    rw [if_pos (by positivity)]
  · rw [handle_p2p_connection]
    rw [if_neg (by push_neg; exact ⟨rfl, hb⟩)]
    rw [if_neg (by
      rintro ⟨-, -, hC⟩
      rw [← hdecl, List.take_length] at hC
      exact hpre hC.symm)]
    rw [if_pos (Or.inr (fun h0 => by
      have h2 := hsc.mp h0
      rw [List.take_of_length_le (le_of_lt hlt)] at h2
      have := congrArg List.length h2
      simp at this
      omega))]
    rw [if_pos (by positivity)]
  · rw [handle_p2p_connection]
    rw [if_neg (by push_neg; exact ⟨rfl, hb⟩)]
    rw [if_pos (show (rid.length : Int) = ((buf.getD 3 0 : Nat) : Int) ∧
        buf.getD 3 0 < strnlen fid 255 ∧
        fid.take (buf.getD 3 0) = rid.take (buf.getD 3 0) from by
      refine ⟨by exact_mod_cast hdecl, ?_, ?_⟩
      · rw [hsn, ← hdecl]
        exact hlt
      · rw [← hdecl, List.take_length]
        exact hpre.symm)]
  · rw [handle_p2p_connection]
    rw [if_neg (by push_neg; exact ⟨rfl, hb⟩)]
    rw [if_neg (by
      rintro ⟨-, hB, -⟩
      rw [hsn, ← hdecl] at hB
      omega)]
    rw [if_neg (by
      push_neg
      refine ⟨?_, hsc.mpr hpre⟩
      show (rid.length : Int) = (buf.getD 3 0 : Int)
      exact_mod_cast hdecl)]

/-- C9 witness: the amended theorem applied to a rejected longer
mismatching identifier, to a rejected shorter mismatching identifier,
to a shorter all-matching identifier (the undefined-behavior path, no
outcome fixed), and to an accepted matching one. -/
theorem C9_handshake_witness :
    handle_p2p_connection [1, 2] (4, [P2P_SENDING_FED_ID, 5, 0, 2]) (2, [1, 3])
        = some ⟨some [REJECT, FEDERATION_ID_DOES_NOT_MATCH], true, none, false⟩ ∧
    handle_p2p_connection [1, 2] (4, [P2P_SENDING_FED_ID, 5, 0, 1]) (1, [7])
        = some ⟨some [REJECT, FEDERATION_ID_DOES_NOT_MATCH], true, none, false⟩ ∧
    handle_p2p_connection [1, 2] (4, [P2P_SENDING_FED_ID, 5, 0, 1]) (1, [1]) = none ∧
    handle_p2p_connection [1, 2] (4, [P2P_SENDING_FED_ID, 5, 0, 2]) (2, [1, 2])
        = some ⟨some [ACK], false, some (extract_ushort (([P2P_SENDING_FED_ID, 5, 0, 2] : List Nat).drop 1)), true⟩ :=
  ⟨(C9_handshake [1, 2] [P2P_SENDING_FED_ID, 5, 0, 2] [1, 3] 4
      (by decide) (by decide) (by decide)).2.1 rfl (by decide) (by decide),
    (C9_handshake [1, 2] [P2P_SENDING_FED_ID, 5, 0, 1] [7] 4
      (by decide) (by decide) (by decide)).2.2.1 rfl (by decide) (by decide),
    (C9_handshake [1, 2] [P2P_SENDING_FED_ID, 5, 0, 1] [1] 4
      (by decide) (by decide) (by decide)).2.2.2.1 rfl (by decide) (by decide),
    (C9_handshake [1, 2] [P2P_SENDING_FED_ID, 5, 0, 2] [1, 2] 4
      (by decide) (by decide) (by decide)).2.2.2.2 rfl (by decide) (by decide)⟩

end Federate

namespace Federate

/-! Section: Claim C5 -/

/-- Attempts on consecutive ports are exactly the corresponding range of
port numbers. -/
theorem portsFrom_eq_range :
    ∀ (k p : Nat), portsFrom p k = (List.range k).map fun i => RtiEvent.attempt (p + i)
  | 0, p => by rfl
  | k + 1, p => by
    rw [portsFrom, portsFrom_eq_range k (p + 1)]
    rw [List.range_succ_eq_map, List.map_cons, List.map_map]
    congr 1
    apply List.map_congr_left
    intro i _
    simp only [Function.comp_apply]
    congr 1
    omega

/-- A failing pass attempts `k` ports. -/
theorem portsFrom_length : ∀ (k p : Nat), (portsFrom p k).length = k
  | 0, _ => rfl
  | k + 1, p => by rw [portsFrom, List.length_cons, portsFrom_length k (p + 1)]

/-- The leading run of connect attempts in a failing pass followed by a
non-attempt event is exactly the pass. -/
theorem takeWhile_portsFrom :
    ∀ (k p : Nat) (e : RtiEvent) (l : List RtiEvent), isAttempt e = false →
      (portsFrom p k ++ e :: l).takeWhile isAttempt = portsFrom p k
  | 0, p, e, l => by
    intro he
    rw [portsFrom, List.nil_append, List.takeWhile_cons, he]
    rfl
  | k + 1, p, e, l => by
    intro he
    rw [portsFrom, List.cons_append, List.takeWhile_cons]
    rw [show isAttempt (.attempt p) = true from rfl]
    rw [takeWhile_portsFrom k (p + 1) e l he]
    rfl

/-- One failing scan pass of the `connect_to_rti` loop, starting `k`
ports before the wrap point: with every connect failing, the loop
attempts the `k` consecutive ports ending at `SP + PRL + 1` and then
either exits fatally (when the retry budget is spent) or sleeps and
restarts the scan at `SP` with one more retry counted. -/
theorem rtiScanSegment (SP PRL N : Nat) :
    ∀ (k : Nat), 1 ≤ k → k ≤ PRL + 2 → ∀ (fuel retries att : Nat),
      connectToRtiLoop SP PRL N (fun _ => false) (fuel + k) (SP + (PRL + 2 - k)) retries att
        = (portsFrom (SP + (PRL + 2 - k)) k ++
            (if N < retries + 1 then [RtiEvent.giveUp]
             else RtiEvent.sleepRetry ::
               (connectToRtiLoop SP PRL N (fun _ => false) fuel SP (retries + 1) (att + k)).1),
           if N < retries + 1 then RtiOutcome.fatalError
           else (connectToRtiLoop SP PRL N (fun _ => false) fuel SP (retries + 1) (att + k)).2)
  | 0 => by intro h0; exact absurd h0 (by omega)
  | 1 => by
    intro _ _ fuel retries att
    rw [connectToRtiLoop]
    rw [if_neg (by simp)]
    rw [if_neg (by omega)]
    by_cases hN : N < retries + 1
    · simp only [if_pos hN]
      rfl
    · simp only [if_neg hN]
      rw [if_pos (show SP + (PRL + 2 - 1) = SP + PRL + 1 by omega)]
      rfl
  | k + 2 => by
    intro _ hk fuel retries att
    rw [show fuel + (k + 2) = (fuel + (k + 1)) + 1 by omega, connectToRtiLoop]
    rw [if_neg (by simp)]
    rw [if_pos (by constructor <;> omega)]
    rw [show SP + (PRL + 2 - (k + 2)) + 1 = SP + (PRL + 2 - (k + 1)) by omega]
    rw [rtiScanSegment SP PRL N (k + 1) (by omega) (by omega) fuel retries (att + 1)]
    rw [show att + 1 + (k + 1) = att + (k + 2) by omega]
    have hports : portsFrom (SP + (PRL + 2 - (k + 2))) (k + 2)
        = RtiEvent.attempt (SP + (PRL + 2 - (k + 2)))
          :: portsFrom (SP + (PRL + 2 - (k + 1))) (k + 1) := by
      rw [portsFrom]
      rw [show SP + (PRL + 2 - (k + 2)) + 1 = SP + (PRL + 2 - (k + 1)) by omega]
    rw [hports]
    rfl

/-- With every TCP connect failing, `connect_to_rti`'s loop started at
`SP` with `m` retry sleeps left in the budget runs `m + 1` full scan
passes and exits fatally. -/
theorem connectToRti_allFail (SP PRL N : Nat) :
    ∀ (m retries att fuel : Nat), retries + m = N →
      connectToRtiLoop SP PRL N (fun _ => false) ((m + 1) * (PRL + 2) + fuel) SP retries att
        = (failScanTrace SP PRL m, RtiOutcome.fatalError)
  | 0, retries, att, fuel => by
    intro hr
    have h := rtiScanSegment SP PRL N (PRL + 2) (by omega) (by omega) fuel retries att
    rw [show SP + (PRL + 2 - (PRL + 2)) = SP by omega] at h
    rw [show (0 + 1) * (PRL + 2) + fuel = fuel + (PRL + 2) by ring, h]
    rw [if_pos (by omega), if_pos (by omega)]
    rfl
  | m + 1, retries, att, fuel => by
    intro hr
    have h := rtiScanSegment SP PRL N (PRL + 2) (by omega) (by omega)
      ((m + 1) * (PRL + 2) + fuel) retries att
    rw [show SP + (PRL + 2 - (PRL + 2)) = SP by omega] at h
    rw [show (m + 1 + 1) * (PRL + 2) + fuel = ((m + 1) * (PRL + 2) + fuel) + (PRL + 2) by ring, h]
    rw [if_neg (by omega), if_neg (by omega)]
    rw [connectToRti_allFail SP PRL N m (retries + 1) (att + (PRL + 2)) fuel (by omega)]
    rfl

/-- C5 counterexample.  With `STARTING_PORT = 1000`,
`PORT_RANGE_LIMIT = 2` and `CONNECT_NUM_RETRIES = 1` and every connect
failing: the first `CONNECT_RETRY_INTERVAL` sleep comes only after 4
(= `PORT_RANGE_LIMIT + 2`, not `PORT_RANGE_LIMIT + 1 = 3`) failed
attempts — the loop also tries port 1003, one past the scan range —
and the fatal exit happens at the end of the second scan pass (the
sixth trace entry reopens the scan at port 1000), not after
`CONNECT_NUM_RETRIES = 1` passes. -/
theorem C5_counterexample :
    connect_to_rti 1000 2 1 (fun _ => false) 20
        = ([.attempt 1000, .attempt 1001, .attempt 1002, .attempt 1003, .sleepRetry,
            .attempt 1000, .attempt 1001, .attempt 1002, .attempt 1003, .giveUp],
           .fatalError) ∧
    ((connect_to_rti 1000 2 1 (fun _ => false) 20).1.takeWhile isAttempt).length = 2 + 2 ∧
    (2 : Nat) + 2 ≠ 2 + 1 ∧
    (connect_to_rti 1000 2 1 (fun _ => false) 20).1.getD 5 RtiEvent.giveUp
        = RtiEvent.attempt 1000 := by
  refine ⟨by decide, by decide, by decide, by decide⟩

/-- C5 (amended): with no specified port and every connect failing, each
scan pass of `connect_to_rti` attempts consecutive ports starting at
`STARTING_PORT`; each pass makes `PORT_RANGE_LIMIT + 2` failed attempts
(ports `STARTING_PORT` through `STARTING_PORT + PORT_RANGE_LIMIT + 1` —
one past the advertised range) before the `CONNECT_RETRY_INTERVAL`
sleep and the wrap back to `STARTING_PORT`; and the function terminates
the process with an error at the end of scan pass
`CONNECT_NUM_RETRIES + 1`. -/
theorem C5_scan (SP PRL N fuel : Nat) :
    connect_to_rti SP PRL N (fun _ => false) ((N + 1) * (PRL + 2) + fuel)
        = (failScanTrace SP PRL N, RtiOutcome.fatalError) ∧
    scanPassAttempts SP PRL = ((List.range (PRL + 2)).map fun i => RtiEvent.attempt (SP + i)) ∧
    (scanPassAttempts SP PRL).length = PRL + 2 ∧
    (failScanTrace SP PRL N).takeWhile isAttempt = scanPassAttempts SP PRL ∧
    (∀ m, failScanTrace SP PRL (m + 1)
        = scanPassAttempts SP PRL ++ RtiEvent.sleepRetry :: failScanTrace SP PRL m) ∧
    failScanTrace SP PRL 0 = scanPassAttempts SP PRL ++ [RtiEvent.giveUp] := by
  refine ⟨connectToRti_allFail SP PRL N N 0 0 fuel (by omega),
    portsFrom_eq_range (PRL + 2) SP, portsFrom_length (PRL + 2) SP, ?_, fun m => rfl, rfl⟩
  cases N with
  | zero => exact takeWhile_portsFrom (PRL + 2) SP RtiEvent.giveUp [] rfl
  | succ m => exact takeWhile_portsFrom (PRL + 2) SP RtiEvent.sleepRetry _ rfl

end Federate


namespace Federate

/-! Section: Claim C10 -/

/-- When every TCP connect to the peer fails, the retry loop of
`connect_to_federate` makes one more attempt per retry budget unit and
then returns softly, the outbound table entry holding the descriptor
created on the final failed attempt. -/
theorem connectFedLoop_allFail (N : Nat) (fds : Nat → Int) (ackOk : Nat → Bool) :
    ∀ (d retries att fuel : Nat), retries + d = N →
      connectToFederateLoop N fds (fun _ => false) ackOk (d + 1 + fuel) retries att
        = some (false, fds (att + d))
  | 0, retries, att, fuel => by
    intro hr
    rw [show 0 + 1 + fuel = fuel + 1 by omega, connectToFederateLoop]
    rw [if_neg (by simp)]
    rw [if_pos (by omega)]
    rfl
  | d + 1, retries, att, fuel => by
    intro hr
    rw [show d + 1 + 1 + fuel = (d + 1 + fuel) + 1 by omega, connectToFederateLoop]
    rw [if_neg (by simp)]
    rw [if_neg (by omega)]
    rw [connectFedLoop_allFail N fds ackOk d (retries + 1) (att + 1) fuel (by omega)]
    rw [show att + 1 + d = att + (d + 1) by omega]

/-- C10: when the TCP connect inside `connect_to_federate(id)` fails more
than `CONNECT_NUM_RETRIES` times (that is, on all of the `N + 1`
attempts the retry budget admits), the function returns normally — a
soft error, in contrast with `connect_to_rti`, which after exhausting
its retry budget terminates the process fatally — and the outbound
connection-table entry for the peer is left holding the last failed,
unconnected socket descriptor, which is a valid descriptor (≥ 0) and
not the unset sentinel -1. -/
theorem C10_soft_giveup (N : Nat) (fds : Nat → Int) (ackOk : Nat → Bool)
    (fuel : Nat) (hfd : ∀ a, 0 ≤ fds a) :
    connect_to_federate N fds (fun _ => false) ackOk (N + 1 + fuel)
        = some (false, fds N) ∧
    fds N ≠ -1 ∧
    (∀ (SP PRL fuel2 : Nat),
      (connect_to_rti SP PRL N (fun _ => false) ((N + 1) * (PRL + 2) + fuel2)).2
        = RtiOutcome.fatalError) := by
  refine ⟨?_, by have := hfd N; omega, fun SP PRL fuel2 => ?_⟩
  · rw [connect_to_federate]
    rw [connectFedLoop_allFail N fds ackOk N 0 0 fuel (by omega)]
    rw [Nat.zero_add]
  · rw [connect_to_rti, connectToRti_allFail SP PRL N N 0 0 fuel2 (by omega)]

/-- C10 witness: with a retry budget of 2 and every connect failing, the
call returns softly after 3 attempts with the table entry holding the
last descriptor, 5. -/
theorem C10_soft_giveup_witness :
    connect_to_federate 2 (fun _ => (5 : Int)) (fun _ => false) (fun _ => true) 3
        = some (false, 5) ∧
    (5 : Int) ≠ -1 ∧
    (connect_to_rti 7 0 2 (fun _ => false) ((2 + 1) * (0 + 2) + 0)).2
        = RtiOutcome.fatalError :=
  ⟨(C10_soft_giveup 2 (fun _ => (5 : Int)) (fun _ => true) 0
      (fun _ => (by decide : (0 : Int) ≤ 5))).1,
    (C10_soft_giveup 2 (fun _ => (5 : Int)) (fun _ => true) 0
      (fun _ => (by decide : (0 : Int) ≤ 5))).2.1,
    (C10_soft_giveup 2 (fun _ => (5 : Int)) (fun _ => true) 0
      (fun _ => (by decide : (0 : Int) ≤ 5))).2.2 7 0 0⟩


end Federate